import Mathlib

/-!
Shallow embedding of the weather time-series pipeline and the polygon
centroid utility of the mind-web-dashboard repository.

Modelling conventions:
* A JavaScript number is modelled by `JsNum`: NaN, the two infinities, or an
  exact rational value (floating-point rounding is idealised away; the claims
  under study depend on validity/finiteness classification and exact small
  arithmetic, not on rounding).
* A JavaScript `Date` object is modelled by `Option Int`: `none` is an
  Invalid Date (`getTime()` is NaN), `some t` is a date whose `getTime()`
  is the integer `t` in milliseconds since the Unix epoch.
* `new Date(isoString)` is modelled by `parseIsoDate`, implementing the
  ECMA-262 Date Time String Format subset `YYYY[-MM[-DD]][THH:MM[:SS[.sss]]][Z]`
  with component validation; the host time zone is modelled as UTC, so an
  offset-less date-time designates the same instant as its `Z` form.
* `date.toISOString().slice(0, 10)` is modelled by `toISODateKey`, using the
  standard civil-from-days calendar algorithm (as the engine does internally).
* Mutation of the raw payload (the `splice` calls in `parseRawWeatherData`)
  is modelled by explicit state passing: `parseRawWeatherDataFull` returns
  both the parsed result and the payload as it stands after the call.
* Exceptions are modelled where they are reachable: `filterByRange`
  returns `Option` because its entry log calls `toISOString` on every
  bound (throwing on an absent range or an invalid-Date bound) before any
  guard runs, and the orchestrator's catch converts such a throw — as
  well as the one its own success log raises on a supplied range shorter
  than two elements — into an empty result.
-/

/-- Model of a JavaScript number: NaN, positive or negative infinity, or a
finite value (an exact rational). -/
inductive JsNum where
  | nan : JsNum
  | inf : JsNum
  | ninf : JsNum
  | val : ℚ → JsNum
deriving DecidableEq, Repr

namespace JsNum

/-- Model of the JavaScript global `isNaN` applied to a number. -/
def isNaN : JsNum → Bool
  | nan => true
  | _ => false

/-- Model of `Number.isFinite`: true exactly on finite values. -/
def isFinite : JsNum → Bool
  | val _ => true
  | _ => false

/-- JavaScript addition on numbers (exact on finite values; NaN and the
infinities propagate as in IEEE 754). -/
def add : JsNum → JsNum → JsNum
  | nan, _ => nan
  | _, nan => nan
  | inf, ninf => nan
  | ninf, inf => nan
  | inf, _ => inf
  | _, inf => inf
  | ninf, _ => ninf
  | _, ninf => ninf
  | val a, val b => val (a + b)

/-- JavaScript division on numbers (exact on finite values; negative zero is
not modelled, so division of a nonzero finite value by zero yields the
infinity matching the numerator sign). -/
def div : JsNum → JsNum → JsNum
  | nan, _ => nan
  | _, nan => nan
  | inf, inf => nan
  | inf, ninf => nan
  | ninf, inf => nan
  | ninf, ninf => nan
  | inf, val b => if b < 0 then ninf else inf
  | ninf, val b => if b < 0 then inf else ninf
  | val _, inf => val 0
  | val _, ninf => val 0
  | val a, val b =>
      if b = 0 then (if a = 0 then nan else if a > 0 then inf else ninf)
      else val (a / b)

end JsNum

/-- Days since the Unix epoch of the civil (proleptic Gregorian) date
`y-m-d`, following the standard days-from-civil algorithm. -/
def daysFromCivil (y : Int) (m d : Nat) : Int :=
  let y' : Int := if m ≤ 2 then y - 1 else y
  let era : Int := y' / 400
  let yoe : Int := y' - era * 400
  let mp : Nat := (m + 9) % 12
  let doy : Int := (153 * (mp : Int) + 2) / 5 + (d : Int) - 1
  let doe : Int := yoe * 365 + yoe / 4 - yoe / 100 + doy
  era * 146097 + doe - 719468

/-- Number of days, within a 400-year era, that precede year-of-era `y`
(0-based, March-first years): `365 y` plus the leap days among the first
`y` era years. -/
def eraDayCount (y : Nat) : Nat := 365 * y + y / 4 - y / 100

/-- Year-of-era of a day-of-era, the quotient formula of the standard
civil-from-days algorithm. -/
def eraYearOf (doe : Nat) : Nat :=
  (doe - doe / 1460 + doe / 36524 - doe / 146096) / 365

/-- Era (400-year block) of a count of days since the Unix epoch. -/
def eraOf (z : Int) : Int := (z + 719468) / 146097

/-- Day-of-era of a count of days since the Unix epoch. -/
def doeOf (z : Int) : Nat := (z + 719468 - eraOf z * 146097).toNat

/-- Civil (proleptic Gregorian) date of a count of days since the Unix
epoch, following the standard civil-from-days algorithm; returns
`(year, month, day)`. -/
def civilFromDays (z : Int) : Int × Nat × Nat :=
  let doe : Nat := doeOf z
  let yoe : Nat := eraYearOf doe
  let doy : Nat := doe - eraDayCount yoe
  let mp : Nat := (5 * doy + 2) / 153
  let d : Nat := doy - (153 * mp + 2) / 5 + 1
  let m : Nat := if mp < 10 then mp + 3 else mp - 9
  let y : Int := (yoe : Int) + eraOf z * 400
  (if m ≤ 2 then y + 1 else y, m, d)

/-- True when `y` is a Gregorian leap year. -/
def isLeapYear (y : Int) : Bool :=
  y % 4 = 0 && (y % 100 ≠ 0 || y % 400 = 0)

/-- Number of days in month `m` of year `y` (months are 1-based). -/
def daysInMonth (y : Int) (m : Nat) : Nat :=
  if m = 2 then (if isLeapYear y then 29 else 28)
  else if m = 4 ∨ m = 6 ∨ m = 9 ∨ m = 11 then 30
  else 31

/-- Character of the decimal digit `n % 10`. -/
def digitChar (n : Nat) : Char :=
  match n % 10 with
  | 0 => '0' | 1 => '1' | 2 => '2' | 3 => '3' | 4 => '4'
  | 5 => '5' | 6 => '6' | 7 => '7' | 8 => '8' | _ => '9'

/-- Decimal string of `n < 100` left-padded with zeros to two digits. -/
def pad2 (n : Nat) : String :=
  String.mk [digitChar (n / 10), digitChar n]

/-- Decimal string of `n < 10000` left-padded with zeros to four digits. -/
def pad4 (n : Nat) : String :=
  String.mk [digitChar (n / 1000), digitChar (n / 100), digitChar (n / 10),
             digitChar n]

/-- Model of `date.toISOString().slice(0, 10)` on a valid date holding `t`
milliseconds since the epoch: the `YYYY-MM-DD` rendering of the UTC calendar
date containing `t`. Faithful for dates whose UTC year lies in `0..9999`
(the engine switches to the expanded-year rendering outside that range; the
claims under study stay inside it). -/
def toISODateKey (t : Int) : String :=
  let days : Int := t / 86400000
  let c := civilFromDays days
  pad4 c.1.toNat ++ "-" ++ pad2 c.2.1 ++ "-" ++ pad2 c.2.2

/-- Numeric value of a decimal digit character. -/
def digitVal (c : Char) : Nat := c.toNat - 48

/-- Reads exactly `n` decimal digits from the character list, extending the
accumulator `acc`; fails if a non-digit is met or input runs out. -/
def readDigits (acc : Nat) : Nat → List Char → Option (Nat × List Char)
  | 0, cs => some (acc, cs)
  | n + 1, c :: cs =>
      if c.isDigit then readDigits (acc * 10 + digitVal c) n cs else none
  | _ + 1, [] => none

/-- Consumes one expected character. -/
def expectChar (ch : Char) : List Char → Option (List Char)
  | c :: cs => if c = ch then some cs else none
  | [] => none

/-- Parses the optional `:SS[.sss]` tail of a time of day, returning
`(seconds, milliseconds, rest)`; an absent tail yields zeros. -/
def parseSecondsPart : List Char → Option (Nat × Nat × List Char)
  | ':' :: cs =>
      match readDigits 0 2 cs with
      | none => none
      | some (ss, cs1) =>
          match cs1 with
          | '.' :: cs2 =>
              match readDigits 0 3 cs2 with
              | none => none
              | some (ms, cs3) => some (ss, ms, cs3)
          | _ => some (ss, 0, cs1)
  | cs => some (0, 0, cs)

/-- True when the remainder after a time of day is a valid end of the
string: empty (host time zone, modelled as UTC) or the UTC designator. -/
def validZoneEnd : List Char → Bool
  | [] => true
  | ['Z'] => true
  | _ => false

/-- Parses `HH:MM[:SS[.sss]][Z]` followed by end of input, validating the
component ranges, and returns the number of milliseconds into the day. -/
def parseTimeOfDay (cs : List Char) : Option Nat :=
  match readDigits 0 2 cs with
  | none => none
  | some (hh, cs1) =>
      match expectChar ':' cs1 with
      | none => none
      | some cs2 =>
          match readDigits 0 2 cs2 with
          | none => none
          | some (mm, cs3) =>
              match parseSecondsPart cs3 with
              | none => none
              | some (ss, ms, cs4) =>
                  if ¬ validZoneEnd cs4 then none
                  else if hh = 24 then
                    (if mm = 0 ∧ ss = 0 ∧ ms = 0 then some 86400000 else none)
                  else if hh ≤ 23 ∧ mm ≤ 59 ∧ ss ≤ 59 then
                    some (hh * 3600000 + mm * 60000 + ss * 1000 + ms)
                  else none

/-- Model of `new Date(s).getTime()` for the ECMA-262 Date Time String
Format subset `YYYY[-MM[-DD]][THH:MM[:SS[.sss]]][Z]` (the format of the
payload contract): `none` is an Invalid Date, `some t` a valid instant of
`t` milliseconds since the epoch. Component ranges are validated as the
format requires; strings outside the subset are modelled as invalid. -/
def parseIsoDate (s : String) : Option Int :=
  match readDigits 0 4 s.toList with
  | none => none
  | some (y, cs1) =>
      match cs1 with
      | [] => some (daysFromCivil (y : Int) 1 1 * 86400000)
      | c1 :: cs2 =>
          if c1 = 'T' then
            (parseTimeOfDay cs2).map
              (fun msOfDay =>
                daysFromCivil (y : Int) 1 1 * 86400000 + (msOfDay : Int))
          else if c1 = '-' then
            match readDigits 0 2 cs2 with
            | none => none
            | some (mo, cs3) =>
                if 1 ≤ mo ∧ mo ≤ 12 then
                  match cs3 with
                  | [] => some (daysFromCivil (y : Int) mo 1 * 86400000)
                  | c2 :: cs4 =>
                      if c2 = 'T' then
                        (parseTimeOfDay cs4).map
                          (fun msOfDay =>
                            daysFromCivil (y : Int) mo 1 * 86400000 +
                              (msOfDay : Int))
                      else if c2 = '-' then
                        match readDigits 0 2 cs4 with
                        | none => none
                        | some (dd, cs5) =>
                            if 1 ≤ dd ∧ dd ≤ daysInMonth (y : Int) mo then
                              match cs5 with
                              | [] =>
                                  some (daysFromCivil (y : Int) mo dd * 86400000)
                              | c3 :: cs6 =>
                                  if c3 = 'T' then
                                    (parseTimeOfDay cs6).map
                                      (fun msOfDay =>
                                        daysFromCivil (y : Int) mo dd * 86400000 +
                                          (msOfDay : Nat))
                                  else none
                            else none
                      else none
                else none
          else none

/-- Display metadata of the payload (`hourly_units` field). -/
structure HourlyUnits where
  time : String
  temperature_2m : String
deriving DecidableEq, Repr

/-- The nested `hourly` record of the raw payload; either inner array may be
absent at run time (the code guards for it), hence the `Option`s. -/
structure HourlyData where
  time : Option (List String)
  temperature_2m : Option (List JsNum)
deriving DecidableEq, Repr

/-- The raw weather payload (`WeatherData` of `recoil/weatherState.ts`);
`hourly` may be absent at run time (the code guards for it). -/
structure WeatherData where
  latitude : JsNum
  longitude : JsNum
  generationtime_ms : JsNum
  utc_offset_seconds : JsNum
  timezone : String
  timezone_abbreviation : String
  elevation : JsNum
  hourly_units : HourlyUnits
  hourly : Option HourlyData
deriving DecidableEq, Repr

/-- A single time-temperature pair (`TimePoint` of the source). The `time`
field is a JavaScript `Date`: `none` when invalid. -/
structure TimePoint where
  time : Option Int
  temperature : JsNum
deriving DecidableEq, Repr

/-- Aggregation granularity selector. -/
inductive TimeUnit where
  | Hour : TimeUnit
  | Day : TimeUnit
deriving DecidableEq, Repr

/-- The per-index body of `parseRawWeatherData`: for each `(iso, temperature)`
pair, parse the ISO string into a date, drop the pair when the date is
invalid (`isNaN(date.getTime())`) or the temperature is NaN, and keep the
valid sample otherwise (the map-then-filter-null of the source). -/
def processPairs (pairs : List (String × JsNum)) : List TimePoint :=
  pairs.filterMap (fun p =>
    match parseIsoDate p.1 with
    | none => none
    | some d => if p.2.isNaN then none else some ⟨some d, p.2⟩)

/-- Model of `parseRawWeatherData`, with the payload state passed
explicitly: returns the parsed samples together with the payload as it
stands after the call (the source truncates both inner arrays in place with
`splice` when their lengths differ). -/
def parseRawWeatherDataFull (raw : Option WeatherData) :
    List TimePoint × Option WeatherData :=
  match raw with
  | none => ([], raw)
  | some w =>
      match w.hourly with
      | none => ([], raw)
      | some h =>
          match h.time, h.temperature_2m with
          | some times, some temps =>
              if times.length = 0 ∨ temps.length = 0 then ([], raw)
              else if times.length ≠ temps.length then
                let minLength := min times.length temps.length
                let times' := times.take minLength
                let temps' := temps.take minLength
                let h' : HourlyData :=
                  { h with time := some times', temperature_2m := some temps' }
                (processPairs (times'.zip temps'),
                 some { w with hourly := some h' })
              else (processPairs (times.zip temps), raw)
          | _, _ => ([], raw)

/-- Result component of `parseRawWeatherData` (what the caller receives). -/
def parseRawWeatherData (raw : Option WeatherData) : List TimePoint :=
  (parseRawWeatherDataFull raw).1

/-- Termination measure for the swap-and-retry recursion of
`filterByRange`: positive exactly on a well-formed range with inverted
bounds, which the single recursive call removes. -/
def rangeMeasure : Option (List (Option Int)) → Nat
  | some [some s, some e] => if e < s then 1 else 0
  | _ => 0

/-- Model of `filterByRange`. The entry `console.log` evaluates
`range.map((d) => d.toISOString())` before any guard: it throws a
TypeError when `range` is absent and a RangeError when any bound is an
Invalid Date. A thrown exception is modelled as `none`, a normal return
as `some`. After that log, an empty series yields the empty list, a range
whose length is not two is a no-op, inverted bounds are swapped and the
call retried once, and the filter keeps the samples lying inclusively
between the bounds. The source's own invalid-bound guard (return the
series unchanged) is dead code after the entry log; it is kept as the
unreachable `some series` arm. -/
def filterByRange (series : List TimePoint)
    (range : Option (List (Option Int))) : Option (List TimePoint) :=
  match range with
  | none => none
  | some r =>
      if r.any (fun d => d.isNone) then none
      else if series.isEmpty then some []
      else if r.length ≠ 2 then some series
      else
        match r with
        | [d1, d2] =>
            match d1, d2 with
            | some s, some e =>
                if e < s then
                  filterByRange series (some [some e, some s])
                else
                  some (series.filter (fun pt =>
                    match pt.time with
                    | none => false
                    | some t => decide (s ≤ t ∧ t ≤ e)))
            | _, _ => some series
        | _ => some series
termination_by rangeMeasure range
decreasing_by
  simp only [rangeMeasure]
  split <;> rename_i heq
  · omega
  · omega

/-- Transient aggregation accumulator of `aggregateByUnit` (one `Map`
value): running sum and count, plus the contributing dates (which the
source records but never reads back). -/
structure Bucket where
  sum : JsNum
  count : Nat
  dates : List (Option Int)
deriving DecidableEq, Repr

/-- One `forEach` step of the bucket-building loop of `aggregateByUnit`:
create the bucket on first sight of the key (insertion order preserved, as
a JavaScript `Map` does) and fold the temperature into it. -/
def bucketAdd (bs : List (String × Bucket)) (key : String)
    (time : Option Int) (temperature : JsNum) : List (String × Bucket) :=
  if bs.any (fun kb => kb.1 = key) then
    bs.map (fun kb =>
      if kb.1 = key then
        (kb.1, ⟨kb.2.sum.add temperature, kb.2.count + 1,
                kb.2.dates ++ [time]⟩)
      else kb)
  else bs ++ [(key, ⟨(JsNum.val 0).add temperature, 1, [time]⟩)]

/-- The bucket map built by `aggregateByUnit` for unit `Day`: skips samples
with an invalid time or NaN temperature, keys the rest by the UTC calendar
day of their time. -/
def buildBuckets (series : List TimePoint) : List (String × Bucket) :=
  series.foldl
    (fun bs pt =>
      match pt.time with
      | none => bs
      | some t =>
          if pt.temperature.isNaN then bs
          else bucketAdd bs (toISODateKey t) pt.time pt.temperature)
    []

/-- The sort comparator of `aggregateByUnit` as a Boolean order: ascending
by `getTime()` (an invalid time is read as 0, a case the emitted samples
never reach for in-range dates). -/
def timeLe (a b : TimePoint) : Bool :=
  decide ((a.time.getD 0) ≤ (b.time.getD 0))

/-- Model of `aggregateByUnit`: `Hour` returns the series unchanged, `Day`
reduces each UTC-day bucket to its midnight instant and mean temperature,
drops NaN means, and sorts ascending by time (a stable sort, as the engine
guarantees). -/
def aggregateByUnit (series : List TimePoint) (unit : TimeUnit) :
    List TimePoint :=
  if series.isEmpty then []
  else if unit = TimeUnit.Hour then series
  else
    let buckets := buildBuckets series
    ((buckets.map (fun kb =>
        let avgTemp := kb.2.sum.div (JsNum.val kb.2.count)
        if avgTemp.isNaN then none
        else some (⟨parseIsoDate (kb.1 ++ "T00:00:00.000Z"), avgTemp⟩ :
          TimePoint))).filterMap id).mergeSort timeLe

/-- Model of `debugWeatherDataPipeline`: parse, optionally filter, then
aggregate, short-circuiting to the empty list when a stage comes back
empty. The try/catch is modelled faithfully as reachable: a `filterByRange`
call that throws (its entry log, modelled as `none`) is converted to the
empty list by the catch, and so is the success log at the end, which
evaluates `range[0].toISOString()` and `range[1].toISOString()` and
therefore throws — caught, yielding the empty list — whenever the
supplied range has fewer than two elements. -/
def debugWeatherDataPipeline (raw : Option WeatherData)
    (range : Option (List (Option Int))) (unit : TimeUnit) :
    List TimePoint :=
  let parsed := parseRawWeatherData raw
  if parsed.isEmpty then []
  else
    match range with
    | none =>
        let aggregated := aggregateByUnit parsed unit
        if aggregated.isEmpty then [] else aggregated
    | some r =>
        match filterByRange parsed (some r) with
        | none => []
        | some filtered =>
            if filtered.isEmpty then []
            else
              let aggregated := aggregateByUnit filtered unit
              if aggregated.isEmpty then []
              else if r.length < 2 then []
              else aggregated

/-- A latitude-longitude vertex. -/
structure LatLngLiteral where
  lat : ℚ
  lng : ℚ
deriving DecidableEq, Repr

/-- Model of `calculateCentroid`; the thrown empty-input error is modelled
as `none`, every other outcome as `some` centroid. `lat` plays the x role
and `lng` the y role of the shoelace formula, as in the source. -/
def calculateCentroid (coords : List LatLngLiteral) : Option LatLngLiteral :=
  let n := coords.length
  if n = 0 then none
  else if n < 3 then
    let sum := coords.foldl
      (fun acc p => ⟨acc.lat + p.lat, acc.lng + p.lng⟩)
      (⟨0, 0⟩ : LatLngLiteral)
    some ⟨sum.lat / (n : ℚ), sum.lng / (n : ℚ)⟩
  else
    let acc := (List.range n).foldl
      (fun (a : ℚ × ℚ × ℚ) i =>
        let p0 := coords.getD i ⟨0, 0⟩
        let p1 := coords.getD ((i + 1) % n) ⟨0, 0⟩
        let cross := p0.lat * p1.lng - p1.lat * p0.lng
        (a.1 + cross, a.2.1 + (p0.lat + p1.lat) * cross,
         a.2.2 + (p0.lng + p1.lng) * cross))
      ((0 : ℚ), (0 : ℚ), (0 : ℚ))
    let area := acc.1 / 2
    if area = 0 then
      let sum := coords.foldl
        (fun acc p => ⟨acc.lat + p.lat, acc.lng + p.lng⟩)
        (⟨0, 0⟩ : LatLngLiteral)
      some ⟨sum.lat / (n : ℚ), sum.lng / (n : ℚ)⟩
    else
      let factor := 1 / (6 * area)
      some ⟨acc.2.1 * factor, acc.2.2 * factor⟩

set_option maxRecDepth 10000

/-- Within an era, each successive year-start strictly increases the
preceding-day count. -/
theorem eraDayCount_step : ∀ y < 400, eraDayCount y < eraDayCount (y + 1) := by
  decide

/-- The year-of-era formula is exact at both ends of every year of the
era. -/
theorem eraYearOf_endpoints :
    ∀ y < 400,
      eraYearOf (eraDayCount y) = y ∧ eraYearOf (eraDayCount (y + 1) - 1) = y := by
  decide

/-- Every era year spans at most 366 days (the era's last day included). -/
theorem eraDayCount_lenA :
    ∀ y < 400,
      (if y = 399 then 146097 else eraDayCount (y + 1)) - eraDayCount y ≤ 366 := by
  decide

/-- An era year spanning 366 days is exactly a leap year in calendar terms
(the calendar year `y + 1`, since era years start in March). -/
theorem eraDayCount_lenB :
    ∀ y < 400,
      ((if y = 399 then 146097 else eraDayCount (y + 1)) - eraDayCount y = 366) →
        ((y + 1) % 4 = 0 ∧ ((y + 1) % 100 ≠ 0 ∨ (y + 1) % 400 = 0)) := by
  decide

/-- The year-of-era formula is monotone in the day-of-era. -/
theorem eraYearOf_mono {a b : Nat} (h : a ≤ b) : eraYearOf a ≤ eraYearOf b := by
  have key : Monotone (fun d => d - d / 1460 + d / 36524 - d / 146096) := by
    apply monotone_nat_of_le_succ
    intro d
    omega
  exact Nat.div_le_div_right (key h)

/-- Every day-of-era below the era's leap day lies in the span of exactly
one era year. -/
theorem exists_interval :
    ∀ doe : Nat, doe ≤ 146095 →
      ∃ y, y < 400 ∧ eraDayCount y ≤ doe ∧ doe < eraDayCount (y + 1) := by
  intro doe
  induction doe with
  | zero =>
      intro _
      exact ⟨0, by norm_num, by simp [eraDayCount], by simp [eraDayCount]⟩
  | succ d ih =>
      intro hle
      obtain ⟨y, hy, h1, h2⟩ := ih (by omega)
      by_cases hcase : d + 1 < eraDayCount (y + 1)
      · exact ⟨y, hy, by omega, hcase⟩
      · have heq : d + 1 = eraDayCount (y + 1) := by omega
        have hy1 : y + 1 < 400 := by
          by_contra hcon
          have h400 : y + 1 = 400 := by omega
          rw [h400] at heq
          have : eraDayCount 400 = 146096 := by decide
          omega
        refine ⟨y + 1, hy1, by omega, ?_⟩
        have := eraDayCount_step (y + 1) hy1
        omega

/-- On the span of era year `y`, the year-of-era formula returns `y`. -/
theorem eraYearOf_interval {y doe : Nat} (hy : y < 400)
    (h1 : eraDayCount y ≤ doe) (h2 : doe < eraDayCount (y + 1)) :
    eraYearOf doe = y := by
  have lo := eraYearOf_mono h1
  have hi := eraYearOf_mono (show doe ≤ eraDayCount (y + 1) - 1 by omega)
  obtain ⟨e1, e2⟩ := eraYearOf_endpoints y hy
  omega

/-- Decomposition of a day-of-era: the year-of-era formula is correct, the
day-of-year is at most 365, and a day-of-year of 365 (a February 29) can
occur only in a calendar leap year. -/
theorem doe_decomp (doe : Nat) (h : doe ≤ 146096) :
    eraYearOf doe ≤ 399 ∧ eraDayCount (eraYearOf doe) ≤ doe ∧
    doe - eraDayCount (eraYearOf doe) ≤ 365 ∧
    (doe - eraDayCount (eraYearOf doe) = 365 →
      ((eraYearOf doe + 1) % 4 = 0 ∧
       ((eraYearOf doe + 1) % 100 ≠ 0 ∨ (eraYearOf doe + 1) % 400 = 0))) := by
  by_cases hlast : doe = 146096
  · subst hlast
    exact ⟨by decide, by decide, by decide, by decide⟩
  · obtain ⟨y, hy, h1, h2⟩ := exists_interval doe (by omega)
    have hF : eraYearOf doe = y := eraYearOf_interval hy h1 h2
    have hA := eraDayCount_lenA y hy
    have hB := eraDayCount_lenB y hy
    rw [hF]
    by_cases hy399 : y = 399
    · subst hy399
      norm_num at hA hB
      have he400 : eraDayCount 400 = 146096 := by decide
      refine ⟨by omega, h1, by omega, fun h365 => by omega⟩
    · rw [if_neg hy399] at hA hB
      refine ⟨by omega, h1, by omega, fun h365 => hB (by omega)⟩

/-- The leap-year predicate unfolded to arithmetic conditions. -/
theorem isLeapYear_iff (y : Int) :
    isLeapYear y = true ↔ (y % 4 = 0 ∧ (y % 100 ≠ 0 ∨ y % 400 = 0)) := by
  simp [isLeapYear]

set_option maxHeartbeats 2000000 in
/-- Core correctness of the civil-from-days decomposition: the components
produced from a day-of-era form a valid calendar date in years `0..9999`
that `daysFromCivil` maps back to the original day count. -/
theorem civil_core (era y yF : Int) (doe yoe doy mp d m : Nat)
    (hdoeB : doe ≤ 146096)
    (heraLo : 4 ≤ era) (heraHi : era ≤ 24)
    (hlast : era = 24 → doe ≤ 146036)
    (hy : yoe = eraYearOf doe)
    (hdoy : doy = doe - eraDayCount yoe)
    (hmp : mp = (5 * doy + 2) / 153)
    (hd : d = doy - (153 * mp + 2) / 5 + 1)
    (hm : m = if mp < 10 then mp + 3 else mp - 9)
    (hyy : y = (yoe : Int) + era * 400)
    (hyF : yF = if m ≤ 2 then y + 1 else y) :
    1 ≤ m ∧ m ≤ 12 ∧ 1 ≤ d ∧
    d ≤ daysInMonth yF m ∧ 0 ≤ yF ∧ yF ≤ 9999 ∧
    daysFromCivil yF m d = era * 146097 + (doe : Int) - 719468 := by
  obtain ⟨hy399, hPle, hdoyUB, hleap⟩ := doe_decomp doe hdoeB
  rw [← hy] at hy399 hPle hdoyUB hleap
  unfold eraDayCount at hPle hdoy hdoyUB hleap
  have h400 : y / 400 = era := by omega
  have hsub : y - y / 400 * 400 = (yoe : Int) := by omega
  have hq4 : (y - y / 400 * 400) / 4 = (yoe : Int) / 4 := by rw [hsub]
  have hq100 : (y - y / 400 * 400) / 100 = (yoe : Int) / 100 := by rw [hsub]
  have hmpB : mp ≤ 11 := by omega
  interval_cases mp
  · norm_num at hm; subst hm
    norm_num at hyF; subst hyF
    refine ⟨by norm_num, by norm_num, by omega, ?_, by omega, by omega, ?_⟩
    · simp only [daysInMonth]; norm_num; omega
    · simp only [daysFromCivil]; norm_num; omega
  · norm_num at hm; subst hm
    norm_num at hyF; subst hyF
    refine ⟨by norm_num, by norm_num, by omega, ?_, by omega, by omega, ?_⟩
    · simp only [daysInMonth]; norm_num; omega
    · simp only [daysFromCivil]; norm_num; omega
  · norm_num at hm; subst hm
    norm_num at hyF; subst hyF
    refine ⟨by norm_num, by norm_num, by omega, ?_, by omega, by omega, ?_⟩
    · simp only [daysInMonth]; norm_num; omega
    · simp only [daysFromCivil]; norm_num; omega
  · norm_num at hm; subst hm
    norm_num at hyF; subst hyF
    refine ⟨by norm_num, by norm_num, by omega, ?_, by omega, by omega, ?_⟩
    · simp only [daysInMonth]; norm_num; omega
    · simp only [daysFromCivil]; norm_num; omega
  · norm_num at hm; subst hm
    norm_num at hyF; subst hyF
    refine ⟨by norm_num, by norm_num, by omega, ?_, by omega, by omega, ?_⟩
    · simp only [daysInMonth]; norm_num; omega
    · simp only [daysFromCivil]; norm_num; omega
  · norm_num at hm; subst hm
    norm_num at hyF; subst hyF
    refine ⟨by norm_num, by norm_num, by omega, ?_, by omega, by omega, ?_⟩
    · simp only [daysInMonth]; norm_num; omega
    · simp only [daysFromCivil]; norm_num; omega
  · norm_num at hm; subst hm
    norm_num at hyF; subst hyF
    refine ⟨by norm_num, by norm_num, by omega, ?_, by omega, by omega, ?_⟩
    · simp only [daysInMonth]; norm_num; omega
    · simp only [daysFromCivil]; norm_num; omega
  · norm_num at hm; subst hm
    norm_num at hyF; subst hyF
    refine ⟨by norm_num, by norm_num, by omega, ?_, by omega, by omega, ?_⟩
    · simp only [daysInMonth]; norm_num; omega
    · simp only [daysFromCivil]; norm_num; omega
  · norm_num at hm; subst hm
    norm_num at hyF; subst hyF
    refine ⟨by norm_num, by norm_num, by omega, ?_, by omega, by omega, ?_⟩
    · simp only [daysInMonth]; norm_num; omega
    · simp only [daysFromCivil]; norm_num; omega
  · norm_num at hm; subst hm
    norm_num at hyF; subst hyF
    refine ⟨by norm_num, by norm_num, by omega, ?_, by omega, by omega, ?_⟩
    · simp only [daysInMonth]; norm_num; omega
    · simp only [daysFromCivil]; norm_num; omega
  · norm_num at hm; subst hm
    norm_num at hyF; subst hyF
    refine ⟨by norm_num, by norm_num, by omega, ?_, by omega, by omega, ?_⟩
    · simp only [daysInMonth]; norm_num; omega
    · simp only [daysFromCivil]; norm_num; omega
  · norm_num at hm; subst hm
    norm_num at hyF; subst hyF
    refine ⟨by norm_num, by norm_num, by omega, ?_, by omega, by omega, ?_⟩
    · simp only [daysInMonth]
      norm_num
      rcases Nat.lt_or_ge doy 365 with h365 | h365
      · have hd28 : d ≤ 28 := by omega
        split <;> omega
      · have hLtrue : isLeapYear (y + 1) = true := by
          rw [isLeapYear_iff]
          have := hleap (by omega)
          omega
        rw [hLtrue]
        norm_num
        omega
    · simp only [daysFromCivil]; norm_num; omega

/-- For day counts in the modelled range (epoch through 9999-12-31),
`civilFromDays` produces a valid calendar date that `daysFromCivil` maps
back to the day count. -/
theorem civilFromDays_spec (z : Int) (h0 : 0 ≤ z) (h1 : z < 2932897) :
    0 ≤ (civilFromDays z).1 ∧ (civilFromDays z).1 ≤ 9999 ∧
    1 ≤ (civilFromDays z).2.1 ∧ (civilFromDays z).2.1 ≤ 12 ∧
    1 ≤ (civilFromDays z).2.2 ∧
    (civilFromDays z).2.2 ≤ daysInMonth (civilFromDays z).1 (civilFromDays z).2.1 ∧
    daysFromCivil (civilFromDays z).1 (civilFromDays z).2.1 (civilFromDays z).2.2 = z := by
  have hdoe : (doeOf z : Int) = z + 719468 - eraOf z * 146097 := by
    unfold doeOf eraOf
    omega
  have hdoeB : doeOf z ≤ 146096 := by
    unfold doeOf eraOf
    omega
  have heraLo : 4 ≤ eraOf z := by
    unfold eraOf
    omega
  have heraHi : eraOf z ≤ 24 := by
    unfold eraOf
    omega
  have hlast : eraOf z = 24 → doeOf z ≤ 146036 := by
    unfold doeOf eraOf
    omega
  have hc := civil_core (eraOf z)
    ((eraYearOf (doeOf z) : Int) + eraOf z * 400)
    (civilFromDays z).1
    (doeOf z) (eraYearOf (doeOf z))
    (doeOf z - eraDayCount (eraYearOf (doeOf z)))
    ((5 * (doeOf z - eraDayCount (eraYearOf (doeOf z))) + 2) / 153)
    ((doeOf z - eraDayCount (eraYearOf (doeOf z))) -
      (153 * ((5 * (doeOf z - eraDayCount (eraYearOf (doeOf z))) + 2) / 153) + 2) / 5 + 1)
    (if (5 * (doeOf z - eraDayCount (eraYearOf (doeOf z))) + 2) / 153 < 10 then
      (5 * (doeOf z - eraDayCount (eraYearOf (doeOf z))) + 2) / 153 + 3
     else (5 * (doeOf z - eraDayCount (eraYearOf (doeOf z))) + 2) / 153 - 9)
    hdoeB heraLo heraHi hlast rfl rfl rfl rfl rfl rfl rfl
  obtain ⟨c1, c2, c3, c4, c5, c6, c7⟩ := hc
  have hz : eraOf z * 146097 + (doeOf z : Int) - 719468 = z := by omega
  exact ⟨c5, c6, c1, c2, c3, c4, c7.trans hz⟩

theorem digitChar_isDigit (n : Nat) : (digitChar n).isDigit = true := by
  unfold digitChar
  have h : n % 10 < 10 := Nat.mod_lt _ (by norm_num)
  generalize hr : n % 10 = r at h ⊢
  interval_cases r <;> decide

theorem digitVal_digitChar (n : Nat) : digitVal (digitChar n) = n % 10 := by
  unfold digitChar
  have h : n % 10 < 10 := Nat.mod_lt _ (by norm_num)
  generalize hr : n % 10 = r at h ⊢
  interval_cases r <;> decide

theorem readDigits_pad2 (m : Nat) (h : m < 100) (rest : List Char) :
    readDigits 0 2 ((pad2 m).toList ++ rest) = some (m, rest) := by
  show readDigits 0 2 (digitChar (m / 10) :: digitChar m :: rest) = some (m, rest)
  rw [readDigits, if_pos (digitChar_isDigit _), readDigits,
      if_pos (digitChar_isDigit _), readDigits]
  rw [digitVal_digitChar, digitVal_digitChar]
  congr 1
  congr 1
  omega

theorem readDigits_pad4 (y : Nat) (h : y < 10000) (rest : List Char) :
    readDigits 0 4 ((pad4 y).toList ++ rest) = some (y, rest) := by
  show readDigits 0 4 (digitChar (y / 1000) :: digitChar (y / 100) ::
    digitChar (y / 10) :: digitChar y :: rest) = some (y, rest)
  rw [readDigits, if_pos (digitChar_isDigit _), readDigits,
      if_pos (digitChar_isDigit _), readDigits, if_pos (digitChar_isDigit _),
      readDigits, if_pos (digitChar_isDigit _), readDigits]
  rw [digitVal_digitChar, digitVal_digitChar, digitVal_digitChar,
      digitVal_digitChar]
  congr 1
  congr 1
  omega

theorem parseTimeOfDay_midnight :
    parseTimeOfDay ("T00:00:00.000Z".toList.tail) = some 0 := by decide

theorem parseTimeOfDay_midnight2 :
    parseTimeOfDay ("00:00:00.000Z".toList) = some 0 := by decide

theorem daysInMonth_le (y : Int) (m : Nat) : daysInMonth y m ≤ 31 := by
  unfold daysInMonth
  split_ifs <;> omega

theorem parseIsoDate_padded (y mo dd : Nat) (hy : y < 10000)
    (hm1 : 1 ≤ mo) (hm2 : mo ≤ 12) (hd1 : 1 ≤ dd)
    (hd2 : dd ≤ daysInMonth (y : Int) mo) :
    parseIsoDate (pad4 y ++ "-" ++ pad2 mo ++ "-" ++ pad2 dd ++ "T00:00:00.000Z") =
      some (daysFromCivil (y : Int) mo dd * 86400000) := by
  have hdm : daysInMonth (y : Int) mo ≤ 31 := daysInMonth_le _ _
  have hlist : (pad4 y ++ "-" ++ pad2 mo ++ "-" ++ pad2 dd ++ "T00:00:00.000Z").toList
      = (pad4 y).toList ++ '-' ::
        ((pad2 mo).toList ++ '-' ::
          ((pad2 dd).toList ++ 'T' :: "00:00:00.000Z".toList)) := by
    simp [String.data_append, String.toList]
  unfold parseIsoDate
  rw [hlist, readDigits_pad4 y hy]
  simp only [readDigits_pad2 mo (by omega)]
  simp +decide only [reduceIte]
  rw [if_pos ⟨hm1, hm2⟩]
  simp only [readDigits_pad2 dd (by omega)]
  simp +decide only [reduceIte]
  rw [if_pos ⟨hd1, hd2⟩, parseTimeOfDay_midnight2]
  simp

theorem midnight_roundtrip (t : Int) (h0 : 0 ≤ t) (h1 : t < 253402300800000) :
    parseIsoDate (toISODateKey t ++ "T00:00:00.000Z") =
      some (t / 86400000 * 86400000) := by
  have hz0 : 0 ≤ t / 86400000 := by omega
  have hz1 : t / 86400000 < 2932897 := by omega
  obtain ⟨s0, s1, s2, s3, s4, s5, s6⟩ := civilFromDays_spec (t / 86400000) hz0 hz1
  have hcast : ((civilFromDays (t / 86400000)).1.toNat : Int) =
      (civilFromDays (t / 86400000)).1 := Int.toNat_of_nonneg s0
  have h := parseIsoDate_padded (civilFromDays (t / 86400000)).1.toNat
      (civilFromDays (t / 86400000)).2.1 (civilFromDays (t / 86400000)).2.2
      (by omega) s2 s3 s4 (by rw [hcast]; exact s5)
  rw [hcast] at h
  simp only [toISODateKey]
  rw [h, s6]

theorem any_isNone_false (r : List (Option Int))
    (h : (none : Option Int) ∉ r) : ¬ (r.any (fun d => d.isNone) = true) := by
  rw [List.any_eq_true]
  rintro ⟨d, hd, hdn⟩
  cases d
  · exact h hd
  · simp at hdn

theorem filterByRange_absent (series : List TimePoint) :
    filterByRange series none = none := by
  unfold filterByRange
  rfl

theorem filterByRange_badbound (series : List TimePoint)
    (r : List (Option Int)) (h : (none : Option Int) ∈ r) :
    filterByRange series (some r) = none := by
  unfold filterByRange
  rw [if_pos (List.any_eq_true.mpr ⟨none, h, rfl⟩)]

theorem filterByRange_nil (r : List (Option Int))
    (h : (none : Option Int) ∉ r) : filterByRange [] (some r) = some [] := by
  unfold filterByRange
  rw [if_neg (any_isNone_false r h), if_pos List.isEmpty_nil]

theorem filterByRange_badlen (series : List TimePoint)
    (r : List (Option Int)) (hv : (none : Option Int) ∉ r)
    (h : r.length ≠ 2) : filterByRange series (some r) = some series := by
  unfold filterByRange
  rw [if_neg (any_isNone_false r hv)]
  by_cases hs : series.isEmpty
  · rw [if_pos hs, List.isEmpty_iff.mp hs]
  · rw [if_neg hs, if_pos h]

theorem filterByRange_eval (series : List TimePoint) (s e : Int) (h : ¬ e < s) :
    filterByRange series (some [some s, some e]) =
      some (series.filter (fun pt =>
        match pt.time with
        | none => false
        | some t => decide (s ≤ t ∧ t ≤ e))) := by
  unfold filterByRange
  rw [if_neg (any_isNone_false _ (by simp))]
  by_cases hs : series.isEmpty
  · rw [if_pos hs, List.isEmpty_iff.mp hs]
    rfl
  · rw [if_neg hs, if_neg (by simp)]
    dsimp only
    rw [if_neg h]

theorem filterByRange_swap (series : List TimePoint) (s e : Int) (h : e < s) :
    filterByRange series (some [some s, some e]) =
      filterByRange series (some [some e, some s]) := by
  conv_lhs => rw [filterByRange]
  rw [if_neg (any_isNone_false _ (by simp))]
  by_cases hs : series.isEmpty
  · rw [if_pos hs, List.isEmpty_iff.mp hs, filterByRange_nil _ (by simp)]
  · rw [if_neg hs, if_neg (by simp)]
    rw [if_pos h]

theorem filterByRange_sublist (series : List TimePoint)
    (range : Option (List (Option Int))) (out : List TimePoint)
    (h : filterByRange series range = some out) : out.Sublist series := by
  match range with
  | none =>
      rw [filterByRange_absent] at h
      cases h
  | some r =>
      by_cases hn : (none : Option Int) ∈ r
      · rw [filterByRange_badbound series r hn] at h
        cases h
      · match r, hn with
        | [], hn =>
            rw [filterByRange_badlen series [] hn (by simp)] at h
            cases Option.some.inj h
            exact List.Sublist.refl _
        | [d], hn =>
            rw [filterByRange_badlen series [d] hn (by simp)] at h
            cases Option.some.inj h
            exact List.Sublist.refl _
        | d1 :: d2 :: d3 :: rest, hn =>
            rw [filterByRange_badlen series _ hn (by simp)] at h
            cases Option.some.inj h
            exact List.Sublist.refl _
        | [d1, d2], hn =>
            obtain ⟨s, rfl⟩ : ∃ s, d1 = some s := by
              cases d1
              · exact absurd (by simp) hn
              · exact ⟨_, rfl⟩
            obtain ⟨e, rfl⟩ : ∃ e, d2 = some e := by
              cases d2
              · exact absurd (by simp) hn
              · exact ⟨_, rfl⟩
            by_cases hlt : e < s
            · rw [filterByRange_swap series s e hlt,
                  filterByRange_eval series e s (by omega)] at h
              cases Option.some.inj h
              exact List.filter_sublist _
            · rw [filterByRange_eval series s e hlt] at h
              cases Option.some.inj h
              exact List.filter_sublist _

def sampleSeries : List TimePoint :=
  [⟨some 5, JsNum.val 1⟩, ⟨some 10, JsNum.val 2⟩, ⟨some 15, JsNum.val 3⟩]

/-- C5 (counterexample): a range whose first bound is an Invalid Date.
The entry log of `filterByRange` calls `toISOString` on each bound before
any guard runs, so the call throws (modelled `none`) instead of returning
the input unchanged — the no-op claim is false of the program. -/
theorem claim_C5_counterexample :
    filterByRange sampleSeries (some [none, some 0]) = none
    ∧ filterByRange sampleSeries (some [none, some 0]) ≠ some sampleSeries := by
  have h := filterByRange_badbound sampleSeries [none, some 0] (by simp)
  rw [h]
  exact ⟨rfl, by simp⟩

/-- C5 (amended): the entry log makes `filterByRange` throw (modelled
`none`) when the range is absent or any bound is an Invalid Date; when
every bound is a valid instant but the range does not have exactly two
elements, it returns the input unchanged; on a valid two-element range
with start at most end it keeps exactly the samples lying inclusively
between the bounds, dropping invalid-time samples; with a non-throwing
range, empty input yields empty output. -/
theorem claim_C5_amended :
    (∀ series : List TimePoint, filterByRange series none = none)
    ∧ (∀ (series : List TimePoint) (r : List (Option Int)),
        (none : Option Int) ∈ r → filterByRange series (some r) = none)
    ∧ (∀ (series : List TimePoint) (r : List (Option Int)),
        (none : Option Int) ∉ r → r.length ≠ 2 →
        filterByRange series (some r) = some series)
    ∧ (∀ (series : List TimePoint) (s e : Int), s ≤ e →
        filterByRange series (some [some s, some e]) =
          some (series.filter (fun pt =>
            match pt.time with
            | none => false
            | some t => decide (s ≤ t ∧ t ≤ e))))
    ∧ (∀ r : List (Option Int), (none : Option Int) ∉ r →
        filterByRange [] (some r) = some []) :=
  ⟨filterByRange_absent, filterByRange_badbound, filterByRange_badlen,
   fun series s e h => filterByRange_eval series s e (by omega),
   filterByRange_nil⟩

/-- Witness for the amended C5 at a concrete series and ranges. -/
theorem claim_C5_witness :
    ((4 : Int) ≤ 10 ∧
      filterByRange sampleSeries (some [some 4, some 10]) =
        some (sampleSeries.filter (fun pt =>
          match pt.time with
          | none => false
          | some t => decide ((4 : Int) ≤ t ∧ t ≤ 10))))
    ∧ ((none : Option Int) ∈ [(none : Option Int), some 0] ∧
        filterByRange sampleSeries (some [none, some 0]) = none)
    ∧ ((none : Option Int) ∉ [(some 4 : Option Int)] ∧
        filterByRange sampleSeries (some [some 4]) = some sampleSeries) :=
  ⟨⟨by decide, claim_C5_amended.2.2.2.1 sampleSeries 4 10 (by decide)⟩,
   ⟨by simp, claim_C5_amended.2.1 sampleSeries [none, some 0] (by simp)⟩,
   ⟨by simp, claim_C5_amended.2.2.1 sampleSeries [some 4] (by simp) (by simp)⟩⟩

/-- C8: an inverted range with two valid instants is normalized by
swapping the bounds, so filtering with `[end, start]` equals filtering
with `[start, end]`. -/
theorem claim_C8 :
    ∀ (series : List TimePoint) (s e : Int), s < e →
      filterByRange series (some [some e, some s]) =
        filterByRange series (some [some s, some e]) :=
  fun series s e h => filterByRange_swap series e s h

/-- Witness for C8 at a concrete series and range. -/
theorem claim_C8_witness :
    (4 : Int) < 10 ∧
    filterByRange sampleSeries (some [some 10, some 4]) =
      filterByRange sampleSeries (some [some 4, some 10]) :=
  ⟨by decide, claim_C8 sampleSeries 4 10 (by decide)⟩

/-- C10: whenever `filterByRange` returns normally (its entry log does
not throw), the output is a sublist of the input: samples are kept
unmodified, in their original relative order, never duplicated or
reordered — in the filtering branch and in the return-input-unchanged
branches alike. -/
theorem claim_C10 :
    ∀ (series : List TimePoint) (range : Option (List (Option Int)))
      (out : List TimePoint),
      filterByRange series range = some out → out.Sublist series :=
  filterByRange_sublist

/-- Witness for C10 at a concrete series and range. -/
theorem claim_C10_witness :
    (sampleSeries.filter (fun pt =>
      match pt.time with
      | none => false
      | some t => decide ((4 : Int) ≤ t ∧ t ≤ 10))).Sublist sampleSeries :=
  claim_C10 sampleSeries (some [some 4, some 10]) _
    (filterByRange_eval sampleSeries 4 10 (by decide))

/-- Identity of the `Hour` branch of `aggregateByUnit`, shared by the
claims about the aggregator and the pipeline. -/
theorem aggregateByUnit_hour (series : List TimePoint) :
    aggregateByUnit series TimeUnit.Hour = series := by
  unfold aggregateByUnit
  by_cases hs : series.isEmpty
  · rw [if_pos hs, List.isEmpty_iff.mp hs]
  · rw [if_neg hs, if_pos rfl]

/-- C9: aggregation by `Hour` is the identity on every series, and hence on
every parsed payload (round-trip). -/
theorem claim_C9 :
    (∀ series : List TimePoint, aggregateByUnit series TimeUnit.Hour = series)
    ∧ (∀ raw, aggregateByUnit (parseRawWeatherData raw) TimeUnit.Hour =
        parseRawWeatherData raw) :=
  ⟨aggregateByUnit_hour, fun _ => aggregateByUnit_hour _⟩

/-- A raw-payload pair survives parsing when its timestamp parses and its
temperature is not NaN (the checks of the source loop). -/
def goodPair (p : String × JsNum) : Bool :=
  (parseIsoDate p.1).isSome && !p.2.isNaN

/-- The sample a surviving pair produces. -/
def specSample (p : String × JsNum) : TimePoint :=
  ⟨parseIsoDate p.1, p.2⟩

theorem processPairs_eq (ps : List (String × JsNum)) :
    processPairs ps = (ps.filter goodPair).map specSample := by
  induction ps with
  | nil => rfl
  | cons p ps ih =>
      unfold processPairs at ih ⊢
      rw [List.filterMap_cons, List.filter_cons]
      cases hp : parseIsoDate p.1 with
      | none => simp [goodPair, hp, ih]
      | some d =>
          cases hn : p.2.isNaN
          · simp [goodPair, hp, hn, ih, specSample]
          · simp [goodPair, hp, hn, ih]

theorem processPairs_length (ps : List (String × JsNum)) :
    (processPairs ps).length = ps.countP goodPair := by
  rw [processPairs_eq, List.length_map, List.countP_eq_length_filter]

/-- A concrete payload with the given hourly arrays (the scalar fields play
no role in the pipeline). -/
def payloadOf (ts : List String) (tm : List JsNum) : WeatherData :=
  ⟨JsNum.val 0, JsNum.val 0, JsNum.val 0, JsNum.val 0, "GMT", "GMT",
   JsNum.val 0, ⟨"iso8601", "celsius"⟩, some ⟨some ts, some tm⟩⟩

/-- C1 (counterexample): a payload whose single temperature is positive
infinity. The parser keeps the sample, because the source checks only
`isNaN`, while the count of pairs with a finite temperature is zero — the
output length does not equal the count of (valid-timestamp, finite-number)
pairs, contradicting the claim as stated. -/
theorem claim_C1_counterexample :
    parseRawWeatherData (some (payloadOf ["2025-07-09T00:00Z"] [JsNum.inf]))
      = [⟨some 1752019200000, JsNum.inf⟩]
    ∧ (["2025-07-09T00:00Z"].zip [JsNum.inf]).countP
        (fun p => (parseIsoDate p.1).isSome && p.2.isFinite) = 0 := by
  constructor
  · rfl
  · rfl

/-- C1 (amended): `parseRawWeatherData` never fails: it returns the empty
list when the payload or its `hourly` field or either inner array is
absent, or either inner array is empty; with equal-length nonempty arrays
it returns, in input order, one sample per index whose timestamp parses
and whose temperature is not NaN (rather than: is finite), dropping every
other index, so the output length is the count of such pairs. -/
theorem claim_C1_amended :
    parseRawWeatherData none = []
    ∧ (∀ w : WeatherData, w.hourly = none → parseRawWeatherData (some w) = [])
    ∧ (∀ (w : WeatherData) (h : HourlyData), w.hourly = some h → h.time = none →
        parseRawWeatherData (some w) = [])
    ∧ (∀ (w : WeatherData) (h : HourlyData), w.hourly = some h →
        h.temperature_2m = none → parseRawWeatherData (some w) = [])
    ∧ (∀ (w : WeatherData) (h : HourlyData) times temps, w.hourly = some h →
        h.time = some times → h.temperature_2m = some temps →
        (times.length = 0 ∨ temps.length = 0) →
        parseRawWeatherData (some w) = [])
    ∧ (∀ (w : WeatherData) (h : HourlyData) times temps, w.hourly = some h →
        h.time = some times → h.temperature_2m = some temps →
        times.length = temps.length → 0 < times.length →
        parseRawWeatherData (some w) =
          ((times.zip temps).filter goodPair).map specSample
        ∧ (parseRawWeatherData (some w)).length =
            (times.zip temps).countP goodPair) := by
  refine ⟨rfl, ?_, ?_, ?_, ?_, ?_⟩
  · intro w hw
    simp only [parseRawWeatherData, parseRawWeatherDataFull, hw]
  · intro w h hw ht
    simp only [parseRawWeatherData, parseRawWeatherDataFull, hw, ht]
  · intro w h hw htm
    simp only [parseRawWeatherData, parseRawWeatherDataFull, hw, htm]
    cases h.time <;> rfl
  · intro w h times temps hw ht htm hlen
    simp only [parseRawWeatherData, parseRawWeatherDataFull, hw, ht, htm]
    rw [if_pos hlen]
  · intro w h times temps hw ht htm hlen hpos
    simp only [parseRawWeatherData, parseRawWeatherDataFull, hw, ht, htm]
    rw [if_neg (by omega), if_neg (by omega)]
    exact ⟨processPairs_eq _, processPairs_length _⟩

/-- Witness for the amended C1 at a concrete equal-length payload. -/
theorem claim_C1_witness :
    parseRawWeatherData (some (payloadOf ["2025-07-09T00:00Z", "bogus"]
        [JsNum.val 5, JsNum.val 6])) =
      (((["2025-07-09T00:00Z", "bogus"]).zip
          [JsNum.val 5, JsNum.val 6]).filter goodPair).map specSample :=
  ((claim_C1_amended.2.2.2.2.2 (payloadOf ["2025-07-09T00:00Z", "bogus"]
      [JsNum.val 5, JsNum.val 6]) ⟨some _, some _⟩ _ _ rfl rfl rfl rfl
      (by decide)).1)

/-- C3: on mismatched-length inner arrays, the parser truncates both to the
shorter length before pairing and filtering: the result equals the parse of
the pre-truncated pairs, and equals parsing a payload whose arrays were
truncated up front; concretely three timestamps against two temperatures
make the parser consider only indices 0 and 1. -/
theorem claim_C3 :
    (∀ (w : WeatherData) (h : HourlyData) times temps, w.hourly = some h →
      h.time = some times → h.temperature_2m = some temps →
      times.length ≠ temps.length → 0 < times.length → 0 < temps.length →
      parseRawWeatherData (some w) =
        processPairs ((times.take (min times.length temps.length)).zip
          (temps.take (min times.length temps.length)))
      ∧ parseRawWeatherData (some w) =
        parseRawWeatherData (some (payloadOf
          (times.take (min times.length temps.length))
          (temps.take (min times.length temps.length)))))
    ∧ parseRawWeatherData (some (payloadOf
        ["2025-07-09T00:00", "2025-07-09T01:00", "2025-07-09T02:00"]
        [JsNum.val 5, JsNum.val 6]))
      = [⟨some 1752019200000, JsNum.val 5⟩, ⟨some 1752022800000, JsNum.val 6⟩] := by
  constructor
  · intro w h times temps hw ht htm hne hpos1 hpos2
    have hmain : parseRawWeatherData (some w) =
        processPairs ((times.take (min times.length temps.length)).zip
          (temps.take (min times.length temps.length))) := by
      simp only [parseRawWeatherData, parseRawWeatherDataFull, hw, ht, htm]
      rw [if_neg (by omega), if_pos hne]
    refine ⟨hmain, hmain.trans ?_⟩
    simp only [parseRawWeatherData, parseRawWeatherDataFull, payloadOf]
    have hA : ¬((times.take (min times.length temps.length)).length = 0 ∨
        (temps.take (min times.length temps.length)).length = 0) := by
      simp only [List.length_take]
      omega
    have hB : ¬((times.take (min times.length temps.length)).length ≠
        (temps.take (min times.length temps.length)).length) := by
      simp only [List.length_take]
      omega
    rw [if_neg hA, if_neg hB]
  · rfl

/-- Witness for C3 at a concrete mismatched payload. -/
theorem claim_C3_witness :
    parseRawWeatherData (some (payloadOf ["2025-07-09T00:00", "t1", "t2"]
        [JsNum.val 5, JsNum.val 6])) =
      processPairs ((["2025-07-09T00:00", "t1", "t2"].take
          (min 3 2)).zip ([JsNum.val 5, JsNum.val 6].take (min 3 2))) :=
  (claim_C3.1 (payloadOf ["2025-07-09T00:00", "t1", "t2"]
      [JsNum.val 5, JsNum.val 6]) ⟨some _, some _⟩ _ _ rfl rfl rfl
      (by decide) (by decide) (by decide)).1

/-- C4 (counterexample): on a payload with a 2-element time array and a
1-element temperature array, the call mutates the payload: the arrays are
truncated in place, so the post-call payload differs from the input. -/
theorem claim_C4_counterexample :
    (parseRawWeatherDataFull (some (payloadOf ["a", "b"] [JsNum.val 1]))).2
      ≠ some (payloadOf ["a", "b"] [JsNum.val 1]) := by
  decide

/-- C4 (amended): the payload is left unchanged in every branch except the
length-mismatch one; when the inner arrays are both nonempty and of
different lengths, both are truncated in place to the shorter length. -/
theorem claim_C4_amended :
    (parseRawWeatherDataFull none).2 = none
    ∧ (∀ w : WeatherData, w.hourly = none →
        (parseRawWeatherDataFull (some w)).2 = some w)
    ∧ (∀ (w : WeatherData) (h : HourlyData), w.hourly = some h → h.time = none →
        (parseRawWeatherDataFull (some w)).2 = some w)
    ∧ (∀ (w : WeatherData) (h : HourlyData), w.hourly = some h →
        h.temperature_2m = none → (parseRawWeatherDataFull (some w)).2 = some w)
    ∧ (∀ (w : WeatherData) (h : HourlyData) times temps, w.hourly = some h →
        h.time = some times → h.temperature_2m = some temps →
        (times.length = 0 ∨ temps.length = 0) →
        (parseRawWeatherDataFull (some w)).2 = some w)
    ∧ (∀ (w : WeatherData) (h : HourlyData) times temps, w.hourly = some h →
        h.time = some times → h.temperature_2m = some temps →
        times.length = temps.length → (parseRawWeatherDataFull (some w)).2 = some w)
    ∧ (∀ (w : WeatherData) (h : HourlyData) times temps, w.hourly = some h →
        h.time = some times → h.temperature_2m = some temps →
        times.length ≠ temps.length → 0 < times.length → 0 < temps.length →
        (parseRawWeatherDataFull (some w)).2 =
          some { w with hourly := some { h with
            time := some (times.take (min times.length temps.length)),
            temperature_2m := some (temps.take (min times.length temps.length)) } }) := by
  refine ⟨rfl, ?_, ?_, ?_, ?_, ?_, ?_⟩
  · intro w hw
    simp only [parseRawWeatherDataFull, hw]
  · intro w h hw ht
    simp only [parseRawWeatherDataFull, hw, ht]
  · intro w h hw htm
    simp only [parseRawWeatherDataFull, hw, htm]
    cases h.time <;> rfl
  · intro w h times temps hw ht htm hlen
    simp only [parseRawWeatherDataFull, hw, ht, htm]
    rw [if_pos hlen]
  · intro w h times temps hw ht htm hlen
    simp only [parseRawWeatherDataFull, hw, ht, htm]
    by_cases h0 : times.length = 0 ∨ temps.length = 0
    · rw [if_pos h0]
    · rw [if_neg h0, if_neg (by omega)]
  · intro w h times temps hw ht htm hne hpos1 hpos2
    simp only [parseRawWeatherDataFull, hw, ht, htm]
    rw [if_neg (by omega), if_pos hne]

/-- Witness for the amended C4 at a concrete mismatched payload. -/
theorem claim_C4_witness :
    (parseRawWeatherDataFull (some (payloadOf ["a", "b"] [JsNum.val 1]))).2 =
      some (payloadOf (["a", "b"].take (min 2 1))
        ([JsNum.val 1].take (min 2 1))) :=
  claim_C4_amended.2.2.2.2.2.2 (payloadOf ["a", "b"] [JsNum.val 1])
    ⟨some _, some _⟩ _ _ rfl rfl rfl (by decide) (by decide) (by decide)

theorem ite_isEmpty_self (l : List TimePoint) :
    (if l.isEmpty then ([] : List TimePoint) else l) = l := by
  by_cases h : l.isEmpty
  · rw [if_pos h, List.isEmpty_iff.mp h]
  · rw [if_neg h]

theorem pipeline_parse_empty (raw : Option WeatherData)
    (range : Option (List (Option Int))) (unit : TimeUnit)
    (hp : parseRawWeatherData raw = []) :
    debugWeatherDataPipeline raw range unit = [] := by
  unfold debugWeatherDataPipeline
  rw [hp]
  rfl

theorem pipeline_filter_throw (raw : Option WeatherData)
    (r : List (Option Int)) (unit : TimeUnit)
    (hf : filterByRange (parseRawWeatherData raw) (some r) = none) :
    debugWeatherDataPipeline raw (some r) unit = [] := by
  unfold debugWeatherDataPipeline
  by_cases hp : (parseRawWeatherData raw).isEmpty
  · rw [if_pos hp]
  · rw [if_neg hp]
    simp only [hf]

theorem pipeline_filter_empty (raw : Option WeatherData)
    (r : List (Option Int)) (unit : TimeUnit)
    (hf : filterByRange (parseRawWeatherData raw) (some r) = some []) :
    debugWeatherDataPipeline raw (some r) unit = [] := by
  unfold debugWeatherDataPipeline
  by_cases hp : (parseRawWeatherData raw).isEmpty
  · rw [if_pos hp]
  · rw [if_neg hp]
    simp only [hf]
    rw [if_pos List.isEmpty_nil]

theorem pipeline_no_range (raw : Option WeatherData) (unit : TimeUnit)
    (hp : parseRawWeatherData raw ≠ []) :
    debugWeatherDataPipeline raw none unit =
      aggregateByUnit (parseRawWeatherData raw) unit := by
  unfold debugWeatherDataPipeline
  rw [if_neg (by simp [hp])]
  exact ite_isEmpty_self _

theorem pipeline_short_range (raw : Option WeatherData)
    (r : List (Option Int)) (unit : TimeUnit)
    (hv : (none : Option Int) ∉ r) (hlen : r.length < 2) :
    debugWeatherDataPipeline raw (some r) unit = [] := by
  unfold debugWeatherDataPipeline
  by_cases hp : (parseRawWeatherData raw).isEmpty
  · rw [if_pos hp]
  · rw [if_neg hp]
    simp only [filterByRange_badlen _ r hv (by omega)]
    rw [if_neg hp]
    by_cases ha : (aggregateByUnit (parseRawWeatherData raw) unit).isEmpty
    · rw [if_pos ha]
    · rw [if_neg ha, if_pos (by omega)]

theorem pipeline_full (raw : Option WeatherData) (r : List (Option Int))
    (unit : TimeUnit) (filtered : List TimePoint)
    (hp : parseRawWeatherData raw ≠ [])
    (hf : filterByRange (parseRawWeatherData raw) (some r) = some filtered)
    (hne : filtered ≠ []) (hlen : 2 ≤ r.length) :
    debugWeatherDataPipeline raw (some r) unit =
      aggregateByUnit filtered unit := by
  unfold debugWeatherDataPipeline
  rw [if_neg (by simp [hp])]
  simp only [hf]
  rw [if_neg (by simp [hne])]
  by_cases ha : (aggregateByUnit filtered unit).isEmpty
  · rw [if_pos ha, List.isEmpty_iff.mp ha]
  · rw [if_neg ha, if_neg (by omega)]

/-- C7 (counterexample): a supplied one-element range with a valid bound.
Parsing is nonempty, `filterByRange` treats the malformed length as a
no-op (returning the nonempty parsed series), and `Hour` aggregation of
that series is nonempty — yet the pipeline returns the empty list, not
the aggregator result, because the success log evaluates
`range[1].toISOString()`, throws, and is caught. -/
theorem claim_C7_counterexample :
    parseRawWeatherData (some (payloadOf ["2025-07-09T00:00Z"] [JsNum.val 5])) ≠ []
    ∧ filterByRange
        (parseRawWeatherData (some (payloadOf ["2025-07-09T00:00Z"] [JsNum.val 5])))
        (some [some 0]) =
      some (parseRawWeatherData (some (payloadOf ["2025-07-09T00:00Z"] [JsNum.val 5])))
    ∧ debugWeatherDataPipeline (some (payloadOf ["2025-07-09T00:00Z"] [JsNum.val 5]))
        (some [some 0]) TimeUnit.Hour = []
    ∧ aggregateByUnit
        (parseRawWeatherData (some (payloadOf ["2025-07-09T00:00Z"] [JsNum.val 5])))
        TimeUnit.Hour ≠ [] := by
  refine ⟨by decide, filterByRange_badlen _ _ (by simp) (by simp),
    pipeline_short_range _ _ _ (by simp) (by simp), ?_⟩
  rw [aggregateByUnit_hour]
  decide

/-- C7 (amended): the orchestrator never raises — the catch converts the
reachable throws to the empty sequence. It returns the empty sequence
when parsing yields nothing; when a supplied range makes `filterByRange`
throw (absent range or Invalid-Date bound); when the range filter yields
nothing; and when the supplied range has fewer than two (valid) elements,
since the success log then throws and is caught. Otherwise — no range, or
a valid two-or-more-element range with a nonempty filter result — it
returns the aggregator result; on a payload with empty arrays it returns
the empty sequence without error. -/
theorem claim_C7_amended :
    (∀ raw range unit, parseRawWeatherData raw = [] →
        debugWeatherDataPipeline raw range unit = [])
    ∧ (∀ raw r unit, filterByRange (parseRawWeatherData raw) (some r) = none →
        debugWeatherDataPipeline raw (some r) unit = [])
    ∧ (∀ raw r unit, filterByRange (parseRawWeatherData raw) (some r) = some [] →
        debugWeatherDataPipeline raw (some r) unit = [])
    ∧ (∀ raw (r : List (Option Int)) unit, (none : Option Int) ∉ r →
        r.length < 2 → debugWeatherDataPipeline raw (some r) unit = [])
    ∧ (∀ raw unit, parseRawWeatherData raw ≠ [] →
        debugWeatherDataPipeline raw none unit =
          aggregateByUnit (parseRawWeatherData raw) unit)
    ∧ (∀ raw (r : List (Option Int)) unit filtered,
        parseRawWeatherData raw ≠ [] →
        filterByRange (parseRawWeatherData raw) (some r) = some filtered →
        filtered ≠ [] → 2 ≤ r.length →
        debugWeatherDataPipeline raw (some r) unit =
          aggregateByUnit filtered unit)
    ∧ debugWeatherDataPipeline (some (payloadOf [] [])) none TimeUnit.Hour = [] :=
  ⟨pipeline_parse_empty, pipeline_filter_throw, pipeline_filter_empty,
   pipeline_short_range, pipeline_no_range, pipeline_full, rfl⟩

/-- Witness for the amended C7 at a concrete payload and a valid
two-element range. -/
theorem claim_C7_witness :
    parseRawWeatherData (some (payloadOf ["2025-07-09T00:00Z"] [JsNum.val 5])) ≠ []
    ∧ debugWeatherDataPipeline (some (payloadOf ["2025-07-09T00:00Z"] [JsNum.val 5]))
        (some [some 0, some 253402300800000]) TimeUnit.Hour =
      aggregateByUnit
        ((parseRawWeatherData (some (payloadOf ["2025-07-09T00:00Z"] [JsNum.val 5]))).filter
          (fun pt =>
            match pt.time with
            | none => false
            | some t => decide ((0 : Int) ≤ t ∧ t ≤ 253402300800000)))
        TimeUnit.Hour :=
  ⟨by decide,
   claim_C7_amended.2.2.2.2.2.1
     (some (payloadOf ["2025-07-09T00:00Z"] [JsNum.val 5]))
     [some 0, some 253402300800000] TimeUnit.Hour _
     (by decide)
     (filterByRange_eval _ 0 253402300800000 (by decide))
     (by decide) (by decide)⟩

/-- Arithmetic mean of the vertex coordinates. -/
def coordMean (coords : List LatLngLiteral) : LatLngLiteral :=
  ⟨(coords.map LatLngLiteral.lat).sum / (coords.length : ℚ),
   (coords.map LatLngLiteral.lng).sum / (coords.length : ℚ)⟩

/-- Cross product of edge `i` of the polygon (`lat` in the x role, `lng` in
the y role, wrapping at the end). -/
def crossAt (coords : List LatLngLiteral) (i : Nat) : ℚ :=
  (coords.getD i ⟨0, 0⟩).lat * (coords.getD ((i + 1) % coords.length) ⟨0, 0⟩).lng -
    (coords.getD ((i + 1) % coords.length) ⟨0, 0⟩).lat * (coords.getD i ⟨0, 0⟩).lng

/-- Twice the signed area of the polygon (shoelace sum). -/
def twiceAreaOf (coords : List LatLngLiteral) : ℚ :=
  ((List.range coords.length).map (fun i => crossAt coords i)).sum

/-- The x-moment accumulator of the polygon-centroid formula. -/
def cxOf (coords : List LatLngLiteral) : ℚ :=
  ((List.range coords.length).map (fun i =>
    ((coords.getD i ⟨0, 0⟩).lat +
      (coords.getD ((i + 1) % coords.length) ⟨0, 0⟩).lat) * crossAt coords i)).sum

/-- The y-moment accumulator of the polygon-centroid formula. -/
def cyOf (coords : List LatLngLiteral) : ℚ :=
  ((List.range coords.length).map (fun i =>
    ((coords.getD i ⟨0, 0⟩).lng +
      (coords.getD ((i + 1) % coords.length) ⟨0, 0⟩).lng) * crossAt coords i)).sum

theorem sumFold (coords : List LatLngLiteral) (acc : LatLngLiteral) :
    coords.foldl (fun acc p => ⟨acc.lat + p.lat, acc.lng + p.lng⟩) acc =
      ⟨acc.lat + (coords.map LatLngLiteral.lat).sum,
       acc.lng + (coords.map LatLngLiteral.lng).sum⟩ := by
  induction coords generalizing acc with
  | nil => simp
  | cons p ps ih =>
      simp only [List.foldl_cons, List.map_cons, List.sum_cons, ih]
      refine congrArg₂ _ ?_ ?_ <;> ring

theorem fold3 (l : List Nat) (f g k : Nat → ℚ) (a b c : ℚ) :
    l.foldl (fun (acc : ℚ × ℚ × ℚ) i =>
        (acc.1 + f i, acc.2.1 + g i, acc.2.2 + k i)) (a, b, c) =
      (a + (l.map f).sum, b + (l.map g).sum, c + (l.map k).sum) := by
  induction l generalizing a b c with
  | nil => simp
  | cons x xs ih =>
      simp only [List.foldl_cons, List.map_cons, List.sum_cons, ih]
      refine congrArg₂ _ (by ring) (congrArg₂ _ (by ring) (by ring))

/-- C6: `calculateCentroid` fails (modelled `none`) exactly on the empty
vertex list; with one or two vertices it returns the coordinate mean; with
three or more it returns the signed-area-weighted centroid
`(Cx / (6 area), Cy / (6 area))` with `lat` in the x role, falling back to
the coordinate mean when the signed area is zero; the 4-by-4 square yields
`(2, 2)`. -/
theorem claim_C6 :
    calculateCentroid [] = none
    ∧ (∀ coords : List LatLngLiteral, coords ≠ [] →
        (calculateCentroid coords).isSome = true)
    ∧ (∀ coords : List LatLngLiteral, 1 ≤ coords.length → coords.length < 3 →
        calculateCentroid coords = some (coordMean coords))
    ∧ (∀ coords : List LatLngLiteral, 3 ≤ coords.length →
        calculateCentroid coords =
          some (if twiceAreaOf coords / 2 = 0 then coordMean coords
            else ⟨cxOf coords / (6 * (twiceAreaOf coords / 2)),
                  cyOf coords / (6 * (twiceAreaOf coords / 2))⟩))
    ∧ calculateCentroid [⟨0, 0⟩, ⟨4, 0⟩, ⟨4, 4⟩, ⟨0, 4⟩] = some ⟨2, 2⟩ := by
  have hmean : ∀ (coords : List LatLngLiteral), 1 ≤ coords.length →
      coords.length < 3 → calculateCentroid coords = some (coordMean coords) := by
    intro coords h1 h3
    unfold calculateCentroid
    rw [if_neg (by omega), if_pos h3, sumFold]
    simp [coordMean]
  have hpoly : ∀ coords : List LatLngLiteral, 3 ≤ coords.length →
      calculateCentroid coords =
        some (if twiceAreaOf coords / 2 = 0 then coordMean coords
          else ⟨cxOf coords / (6 * (twiceAreaOf coords / 2)),
                cyOf coords / (6 * (twiceAreaOf coords / 2))⟩) := by
    intro coords h3
    unfold calculateCentroid
    rw [if_neg (by omega), if_neg (by omega), fold3, sumFold]
    simp only [zero_add, cxOf, cyOf, twiceAreaOf, crossAt]
    split_ifs with harea
    · simp [coordMean]
    · simp only [one_div, div_eq_mul_inv, one_mul]
  have hsquare : calculateCentroid [⟨0, 0⟩, ⟨4, 0⟩, ⟨4, 4⟩, ⟨0, 4⟩] =
      some ⟨2, 2⟩ := by
    rw [hpoly [⟨0, 0⟩, ⟨4, 0⟩, ⟨4, 4⟩, ⟨0, 4⟩] (by norm_num)]
    have h1 : twiceAreaOf [⟨0, 0⟩, ⟨4, 0⟩, ⟨4, 4⟩, ⟨0, 4⟩] = 32 := by
      norm_num [twiceAreaOf, crossAt, List.range_succ]
    have h2 : cxOf [⟨0, 0⟩, ⟨4, 0⟩, ⟨4, 4⟩, ⟨0, 4⟩] = 192 := by
      norm_num [cxOf, crossAt, List.range_succ]
    have h3 : cyOf [⟨0, 0⟩, ⟨4, 0⟩, ⟨4, 4⟩, ⟨0, 4⟩] = 192 := by
      norm_num [cyOf, crossAt, List.range_succ]
    rw [h1, h2, h3]
    norm_num
  refine ⟨rfl, ?_, hmean, hpoly, hsquare⟩
  intro coords hne
  have hpos : 1 ≤ coords.length := by
    cases coords
    · exact absurd rfl hne
    · simp
  by_cases h3 : coords.length < 3
  · rw [hmean coords hpos h3]
    rfl
  · rw [hpoly coords (by omega)]
    rfl

/-- Witness for C6 at concrete one-, two- and four-vertex polygons. -/
theorem claim_C6_witness :
    (1 ≤ ([⟨0, 0⟩, ⟨2, 2⟩] : List LatLngLiteral).length
      ∧ ([⟨0, 0⟩, ⟨2, 2⟩] : List LatLngLiteral).length < 3
      ∧ calculateCentroid [⟨0, 0⟩, ⟨2, 2⟩] =
          some (coordMean [⟨0, 0⟩, ⟨2, 2⟩]))
    ∧ (([⟨1, 1⟩] : List LatLngLiteral) ≠ [] ∧
        (calculateCentroid [⟨1, 1⟩]).isSome = true) :=
  ⟨⟨by decide, by decide, claim_C6.2.2.1 [⟨0, 0⟩, ⟨2, 2⟩] (by decide) (by decide)⟩,
   ⟨by decide, claim_C6.2.1 [⟨1, 1⟩] (by decide)⟩⟩

def dedupFirst {α : Type} [DecidableEq α] (l : List α) : List α :=
  l.foldl (fun acc x => if x ∈ acc then acc else acc ++ [x]) []

theorem dedupFirst_append_singleton {α : Type} [DecidableEq α] (l : List α) (x : α) :
    dedupFirst (l ++ [x]) =
      if x ∈ dedupFirst l then dedupFirst l else dedupFirst l ++ [x] := by
  unfold dedupFirst
  rw [List.foldl_append]
  rfl

theorem mem_foldl_dedup {α : Type} [DecidableEq α] (l : List α) (acc : List α) (y : α) :
    (y ∈ l.foldl (fun acc x => if x ∈ acc then acc else acc ++ [x]) acc) ↔
      y ∈ acc ∨ y ∈ l := by
  induction l generalizing acc with
  | nil => simp
  | cons x xs ih =>
      simp only [List.foldl_cons]
      rw [ih]
      by_cases hx : x ∈ acc
      · rw [if_pos hx]
        simp only [List.mem_cons]
        constructor
        · rintro (h | h)
          · exact Or.inl h
          · exact Or.inr (Or.inr h)
        · rintro (h | h | h)
          · exact Or.inl h
          · exact Or.inl (h ▸ hx)
          · exact Or.inr h
      · rw [if_neg hx]
        simp only [List.mem_append, List.mem_singleton, List.mem_cons]
        tauto

theorem mem_dedupFirst {α : Type} [DecidableEq α] (l : List α) (y : α) :
    y ∈ dedupFirst l ↔ y ∈ l := by
  simpa [dedupFirst] using mem_foldl_dedup l [] y

theorem nodup_foldl_dedup {α : Type} [DecidableEq α] (l : List α) (acc : List α)
    (hacc : acc.Nodup) :
    (l.foldl (fun acc x => if x ∈ acc then acc else acc ++ [x]) acc).Nodup := by
  induction l generalizing acc with
  | nil => exact hacc
  | cons x xs ih =>
      simp only [List.foldl_cons]
      by_cases hx : x ∈ acc
      · rw [if_pos hx]
        exact ih acc hacc
      · rw [if_neg hx]
        refine ih _ ?_
        simp [List.nodup_append, hacc, hx]

theorem dedupFirst_nodup {α : Type} [DecidableEq α] (l : List α) :
    (dedupFirst l).Nodup :=
  nodup_foldl_dedup l [] List.nodup_nil

theorem dedupFirst_map {α β : Type} [DecidableEq α] [DecidableEq β]
    (f : α → β) (l : List α)
    (hinj : ∀ a ∈ l, ∀ b ∈ l, f a = f b → a = b) :
    dedupFirst (l.map f) = (dedupFirst l).map f := by
  induction l using List.reverseRecOn with
  | nil => rfl
  | append_singleton l x ih =>
      have hinj' : ∀ a ∈ l, ∀ b ∈ l, f a = f b → a = b := by
        intro a ha b hb
        exact hinj a (by simp [ha]) b (by simp [hb])
      rw [List.map_append, List.map_singleton, dedupFirst_append_singleton,
          dedupFirst_append_singleton, ih hinj']
      by_cases hx : x ∈ dedupFirst l
      · rw [if_pos hx, if_pos (List.mem_map_of_mem f hx)]
      · rw [if_neg hx, if_neg ?_, List.map_append, List.map_singleton]
        intro hmem
        obtain ⟨a, ha, hfa⟩ := List.mem_map.mp hmem
        have ha' : a ∈ l := (mem_dedupFirst l a).mp ha
        have : a = x := hinj a (by simp [ha']) x (by simp) hfa
        rw [← this] at hx
        exact hx ha

/-- A sample with a valid time and a finite temperature. -/
def isFiniteSample (pt : TimePoint) : Bool :=
  pt.time.isSome && pt.temperature.isFinite

/-- The UTC-day bucket key of a sample (total; reads an invalid time as
epoch, a case valid samples never reach). -/
def keyOf (pt : TimePoint) : String := toISODateKey (pt.time.getD 0)

/-- The bucket keys of a series, in series order. -/
def keysOf (series : List TimePoint) : List String := series.map keyOf

/-- The finite temperatures of the samples of a series keyed `k`, in
series order. -/
def keyTemps (series : List TimePoint) (k : String) : List ℚ :=
  series.filterMap (fun pt =>
    match pt.temperature with
    | JsNum.val q => if keyOf pt = k then some q else none
    | _ => none)

/-- The recorded dates of the samples of a series keyed `k`. -/
def keyDates (series : List TimePoint) (k : String) : List (Option Int) :=
  (series.filter (fun pt => keyOf pt = k)).map (fun pt => pt.time)

/-- The bucket map a series builds, described directly: one entry per
distinct key in first-appearance order, holding the sum, count and dates
of that key's samples. -/
def bucketsSpec (series : List TimePoint) : List (String × Bucket) :=
  (dedupFirst (keysOf series)).map (fun k =>
    (k, ⟨JsNum.val ((keyTemps series k).sum), (keyTemps series k).length,
         keyDates series k⟩))

theorem keyTemps_append (series : List TimePoint) (pt : TimePoint)
    (q : ℚ) (hq : pt.temperature = JsNum.val q)
    (k : String) :
    keyTemps (series ++ [pt]) k =
      keyTemps series k ++ (if keyOf pt = k then [q] else []) := by
  unfold keyTemps
  rw [List.filterMap_append]
  congr 1
  simp only [List.filterMap_cons, List.filterMap_nil, hq]
  split_ifs with h <;> rfl

theorem keyDates_append (series : List TimePoint) (pt : TimePoint) (k : String) :
    keyDates (series ++ [pt]) k =
      keyDates series k ++ (if keyOf pt = k then [pt.time] else []) := by
  unfold keyDates
  rw [List.filter_append]
  rw [List.map_append]
  congr 1
  by_cases h : keyOf pt = k
  · rw [List.filter_cons, if_pos (by simpa using h)]
    simp [h]
  · rw [List.filter_cons, if_neg (by simpa using h)]
    simp [h]

theorem keyTemps_not_mem (series : List TimePoint) (k : String)
    (h : k ∉ keysOf series) : keyTemps series k = [] := by
  unfold keyTemps
  rw [List.filterMap_eq_nil_iff]
  intro pt hpt
  have : keyOf pt ≠ k := fun heq => h (heq ▸ List.mem_map_of_mem keyOf hpt)
  cases hq : pt.temperature <;> simp [this]

theorem keyDates_not_mem (series : List TimePoint) (k : String)
    (h : k ∉ keysOf series) : keyDates series k = [] := by
  unfold keyDates
  rw [List.map_eq_nil_iff, List.filter_eq_nil_iff]
  intro pt hpt
  have : keyOf pt ≠ k := fun heq => h (heq ▸ List.mem_map_of_mem keyOf hpt)
  simpa using this

theorem buildBuckets_append (series : List TimePoint) (pt : TimePoint) :
    buildBuckets (series ++ [pt]) =
      (match pt.time with
       | none => buildBuckets series
       | some t =>
           if pt.temperature.isNaN then buildBuckets series
           else bucketAdd (buildBuckets series) (toISODateKey t) pt.time
             pt.temperature) := by
  unfold buildBuckets
  rw [List.foldl_append]
  rfl

theorem any_map_general {α β : Type} (l : List α) (f : α → β) (p : β → Bool) :
    (l.map f).any p = l.any (fun x => p (f x)) := by
  induction l with
  | nil => rfl
  | cons x xs ih => simp [ih]

theorem buildBuckets_eq (series : List TimePoint)
    (hfin : ∀ pt ∈ series, isFiniteSample pt = true) :
    buildBuckets series = bucketsSpec series := by
  induction series using List.reverseRecOn with
  | nil => rfl
  | append_singleton series pt ih =>
      have hser : ∀ pt' ∈ series, isFiniteSample pt' = true := by
        intro pt' h
        exact hfin pt' (by simp [h])
      have hpt : isFiniteSample pt = true := hfin pt (by simp)
      obtain ⟨t, ht⟩ : ∃ t, pt.time = some t := by
        unfold isFiniteSample at hpt
        cases h : pt.time
        · rw [h] at hpt
          simp at hpt
        · exact ⟨_, rfl⟩
      obtain ⟨q, hq⟩ : ∃ q, pt.temperature = JsNum.val q := by
        unfold isFiniteSample at hpt
        cases h : pt.temperature <;> rw [h] at hpt <;> simp_all [JsNum.isFinite]
      have hkey : toISODateKey t = keyOf pt := by
        unfold keyOf
        rw [ht]
        rfl
      have hnan : pt.temperature.isNaN = false := by
        rw [hq]
        rfl
      rw [buildBuckets_append, ht, hnan, ih hser]
      simp only [Bool.false_eq_true, if_false, hkey]
      unfold bucketsSpec
      have hkeys : keysOf (series ++ [pt]) = keysOf series ++ [keyOf pt] := by
        unfold keysOf
        rw [List.map_append]
        rfl
      rw [hkeys, dedupFirst_append_singleton]
      unfold bucketAdd
      have hany : ((dedupFirst (keysOf series)).map (fun k =>
          (k, (⟨JsNum.val ((keyTemps series k).sum), (keyTemps series k).length,
               keyDates series k⟩ : Bucket)))).any
            (fun kb => kb.1 = keyOf pt) =
          decide (keyOf pt ∈ dedupFirst (keysOf series)) := by
        rw [any_map_general]
        by_cases hmem : keyOf pt ∈ dedupFirst (keysOf series)
        · rw [decide_eq_true hmem, List.any_eq_true]
          exact ⟨keyOf pt, hmem, by simp⟩
        · rw [decide_eq_false hmem, ← Bool.not_eq_true, List.any_eq_true]
          rintro ⟨x, hx, hxx⟩
          simp only [decide_eq_true_eq] at hxx
          exact hmem (hxx ▸ hx)
      rw [hany]
      by_cases hmem : keyOf pt ∈ dedupFirst (keysOf series)
      · rw [decide_eq_true hmem, if_pos rfl, if_pos hmem, List.map_map]
        apply List.map_congr_left
        intro k hk
        have htm := keyTemps_append series pt q hq k
        have hdt := keyDates_append series pt k
        rw [ht] at hdt
        by_cases hkk : k = keyOf pt
        · rw [if_pos hkk.symm] at htm hdt
          dsimp only [Function.comp_apply]
          rw [if_pos (by exact hkk), htm, hdt, hq]
          simp [JsNum.add, List.sum_append]
        · rw [if_neg (fun h => hkk h.symm)] at htm hdt
          dsimp only [Function.comp_apply]
          rw [if_neg (by exact hkk), htm, hdt, List.append_nil, List.append_nil]
      · rw [decide_eq_false hmem, if_neg (by simp), if_neg hmem, List.map_append]
        congr 1
        · apply List.map_congr_left
          intro k hk
          have hkk : keyOf pt ≠ k := fun h => hmem (h ▸ hk)
          have htm := keyTemps_append series pt q hq k
          have hdt := keyDates_append series pt k
          rw [if_neg hkk] at htm hdt
          rw [htm, hdt, List.append_nil, List.append_nil]
        · have hnot : keyOf pt ∉ keysOf series := by
            intro h
            exact hmem ((mem_dedupFirst _ _).mpr h)
          have htm := keyTemps_append series pt q hq (keyOf pt)
          have hdt := keyDates_append series pt (keyOf pt)
          rw [ht] at hdt
          rw [if_pos rfl, keyTemps_not_mem series _ hnot] at htm
          rw [if_pos rfl, keyDates_not_mem series _ hnot] at hdt
          simp only [List.map_singleton, List.nil_append] at htm hdt ⊢
          rw [htm, hdt, hq]
          simp [JsNum.add]

theorem keyTemps_length_pos (series : List TimePoint) (k : String)
    (hfin : ∀ pt ∈ series, isFiniteSample pt = true) (hk : k ∈ keysOf series) :
    0 < (keyTemps series k).length := by
  obtain ⟨pt, hpt, hkey⟩ := List.mem_map.mp hk
  have := hfin pt hpt
  unfold isFiniteSample at this
  obtain ⟨q, hq⟩ : ∃ q, pt.temperature = JsNum.val q := by
    cases h : pt.temperature <;> rw [h] at this <;> simp_all [JsNum.isFinite]
  have hmem : q ∈ keyTemps series k := by
    unfold keyTemps
    apply List.mem_filterMap.mpr
    exact ⟨pt, hpt, by rw [hq, hkey]; simp⟩
  exact List.length_pos_of_mem hmem

theorem filterMap_id_map_some {α β : Type} (l : List α) (f : α → Option β)
    (g : α → β) (h : ∀ x ∈ l, f x = some (g x)) :
    (l.map f).filterMap id = l.map g := by
  induction l with
  | nil => rfl
  | cons x xs ih =>
      rw [List.map_cons, List.filterMap_cons, h x (by simp), List.map_cons,
          ih (fun y hy => h y (by simp [hy]))]
      rfl

theorem dayAgg_eq (series : List TimePoint)
    (hfin : ∀ pt ∈ series, isFiniteSample pt = true) :
    aggregateByUnit series TimeUnit.Day =
      ((dedupFirst (keysOf series)).map (fun k =>
        (⟨parseIsoDate (k ++ "T00:00:00.000Z"),
          JsNum.val ((keyTemps series k).sum / ((keyTemps series k).length : ℚ))⟩ :
          TimePoint))).mergeSort timeLe := by
  by_cases hs : series.isEmpty
  · rw [List.isEmpty_iff.mp hs]
    simp [aggregateByUnit, keysOf, dedupFirst, List.mergeSort_nil]
  · unfold aggregateByUnit
    rw [if_neg hs, if_neg (by decide), buildBuckets_eq series hfin]
    unfold bucketsSpec
    simp only [List.map_map]
    congr 1
    refine filterMap_id_map_some _ _ _ ?_
    intro k hk
    have hpos := keyTemps_length_pos series k hfin ((mem_dedupFirst _ _).mp hk)
    have hne : ((keyTemps series k).length : ℚ) ≠ 0 := by
      exact_mod_cast Nat.pos_iff_ne_zero.mp hpos
    dsimp only [Function.comp_apply]
    rw [show (JsNum.val ((keyTemps series k).sum)).div
        (JsNum.val ((keyTemps series k).length : ℚ)) =
        JsNum.val ((keyTemps series k).sum / ((keyTemps series k).length : ℚ)) by
      simp [JsNum.div, hne]]
    rfl

/-- A sample whose time is a valid instant in the modelled calendar range
(epoch through year 9999) and whose temperature is finite. -/
def inModelRange (pt : TimePoint) : Bool :=
  match pt.time, pt.temperature with
  | some t, JsNum.val _ => decide (0 ≤ t ∧ t < 253402300800000)
  | _, _ => false

/-- The UTC day numbers (days since epoch) of the samples of a series with
a valid time, in series order. -/
def daysOf (series : List TimePoint) : List Int :=
  series.filterMap (fun pt => pt.time.map (fun t => t / 86400000))

/-- The finite temperatures of the valid samples of a series whose time
falls on UTC day `D`, in series order. -/
def dayTemps (series : List TimePoint) (D : Int) : List ℚ :=
  series.filterMap (fun pt =>
    match pt.time, pt.temperature with
    | some t, JsNum.val q => if t / 86400000 = D then some q else none
    | _, _ => none)

/-- Arithmetic mean of the temperatures of UTC day `D`. -/
def dayMean (series : List TimePoint) (D : Int) : ℚ :=
  (dayTemps series D).sum / ((dayTemps series D).length : ℚ)

theorem inModelRange_finite (pt : TimePoint) (h : inModelRange pt = true) :
    isFiniteSample pt = true := by
  unfold inModelRange at h
  unfold isFiniteSample
  cases ht : pt.time <;> cases htm : pt.temperature <;> rw [ht, htm] at h <;>
    simp_all [JsNum.isFinite]

theorem inModelRange_parts (pt : TimePoint) (h : inModelRange pt = true) :
    ∃ t q, pt.time = some t ∧ 0 ≤ t ∧ t < 253402300800000 ∧
      pt.temperature = JsNum.val q := by
  unfold inModelRange at h
  cases ht : pt.time <;> cases htm : pt.temperature <;> rw [ht, htm] at h <;>
    simp_all

theorem toISODateKey_day (t : Int) :
    toISODateKey t = toISODateKey (86400000 * (t / 86400000)) := by
  unfold toISODateKey
  rw [Int.mul_ediv_cancel_left _ (by norm_num)]

theorem dayKey_inj {a b : Int} (ha1 : 0 ≤ a) (ha2 : a < 2932897)
    (hb1 : 0 ≤ b) (hb2 : b < 2932897)
    (heq : toISODateKey (86400000 * a) = toISODateKey (86400000 * b)) :
    a = b := by
  have r1 := midnight_roundtrip (86400000 * a) (by omega) (by omega)
  have r2 := midnight_roundtrip (86400000 * b) (by omega) (by omega)
  rw [heq, r2] at r1
  rw [Int.mul_ediv_cancel_left _ (by norm_num),
      Int.mul_ediv_cancel_left _ (by norm_num)] at r1
  have := Option.some.inj r1
  omega

theorem daysOf_eq_map (series : List TimePoint)
    (hval : ∀ pt ∈ series, inModelRange pt = true) :
    daysOf series = series.map (fun pt => pt.time.getD 0 / 86400000) := by
  unfold daysOf
  induction series with
  | nil => rfl
  | cons pt rest ih =>
      obtain ⟨t, q, ht, _, _, _⟩ := inModelRange_parts pt (hval pt (by simp))
      rw [List.filterMap_cons, List.map_cons,
          ih (fun p hp => hval p (by simp [hp])), ht]
      rfl

theorem keysOf_eq_map (series : List TimePoint)
    (hval : ∀ pt ∈ series, inModelRange pt = true) :
    keysOf series =
      (daysOf series).map (fun D => toISODateKey (86400000 * D)) := by
  rw [daysOf_eq_map series hval, List.map_map]
  unfold keysOf
  apply List.map_congr_left
  intro pt hpt
  exact toISODateKey_day _

theorem daysOf_range (series : List TimePoint)
    (hval : ∀ pt ∈ series, inModelRange pt = true) :
    ∀ D ∈ daysOf series, 0 ≤ D ∧ D < 2932897 := by
  intro D hD
  obtain ⟨pt, hpt, hfd⟩ := List.mem_filterMap.mp hD
  obtain ⟨t, q, ht, h1, h2, _⟩ := inModelRange_parts pt (hval pt hpt)
  rw [ht] at hfd
  have : t / 86400000 = D := Option.some.inj hfd
  omega

theorem filterMap_congr_mem {α β : Type} {l : List α} {f g : α → Option β}
    (h : ∀ a ∈ l, f a = g a) : l.filterMap f = l.filterMap g := by
  induction l with
  | nil => rfl
  | cons x xs ih =>
      rw [List.filterMap_cons, List.filterMap_cons, h x (by simp),
          ih (fun a ha => h a (by simp [ha]))]

theorem key_iff_day (pt : TimePoint) (t : Int) (ht : pt.time = some t)
    (h1 : 0 ≤ t) (h2 : t < 253402300800000) (D : Int)
    (hD1 : 0 ≤ D) (hD2 : D < 2932897) :
    keyOf pt = toISODateKey (86400000 * D) ↔ t / 86400000 = D := by
  unfold keyOf
  rw [ht]
  simp only [Option.getD_some]
  constructor
  · intro h
    rw [toISODateKey_day t] at h
    exact dayKey_inj (by omega) (by omega) hD1 hD2 h
  · intro h
    rw [toISODateKey_day t, h]

theorem keyTemps_eq_dayTemps (series : List TimePoint) (D : Int)
    (hval : ∀ pt ∈ series, inModelRange pt = true)
    (hD1 : 0 ≤ D) (hD2 : D < 2932897) :
    keyTemps series (toISODateKey (86400000 * D)) = dayTemps series D := by
  unfold keyTemps dayTemps
  apply filterMap_congr_mem
  intro pt hpt
  obtain ⟨t, q, ht, h1, h2, hq⟩ := inModelRange_parts pt (hval pt hpt)
  simp only [ht, hq]
  have hiff := key_iff_day pt t ht h1 h2 D hD1 hD2
  by_cases hc : t / 86400000 = D
  · rw [if_pos hc, if_pos (hiff.mpr hc)]
  · rw [if_neg hc, if_neg (fun hh => hc (hiff.mp hh))]

theorem timeLe_trans (a b c : TimePoint) (h1 : timeLe a b = true)
    (h2 : timeLe b c = true) : timeLe a c = true := by
  unfold timeLe at *
  simp only [decide_eq_true_eq] at *
  omega

theorem timeLe_total (a b : TimePoint) : (timeLe a b || timeLe b a) = true := by
  unfold timeLe
  simp only [Bool.or_eq_true, decide_eq_true_eq]
  omega

/-- The example series of the specification: three hourly samples, two on
2025-07-09 (01:00Z and 13:00Z) and one at 2025-07-10T00:00Z. -/
def exDaySeries : List TimePoint :=
  [⟨some 1752022800000, JsNum.val 10⟩, ⟨some 1752066000000, JsNum.val 20⟩,
   ⟨some 1752105600000, JsNum.val 30⟩]

/-- C2: for every series of valid in-range samples, aggregation by `Day`
produces (up to the final ascending sort, stated as a permutation plus
sortedness) one sample per distinct UTC day — time at that day's midnight
UTC instant, temperature the arithmetic mean of the day's samples — and
on the specification's example input yields exactly the two expected
day samples. -/
theorem claim_C2 :
    (∀ series : List TimePoint, (∀ pt ∈ series, inModelRange pt = true) →
        (aggregateByUnit series TimeUnit.Day).Perm
          ((dedupFirst (daysOf series)).map (fun D =>
            (⟨some (86400000 * D), JsNum.val (dayMean series D)⟩ : TimePoint)))
        ∧ (dedupFirst (daysOf series)).Nodup
        ∧ List.Pairwise (fun a b : TimePoint => timeLe a b = true)
            (aggregateByUnit series TimeUnit.Day))
    ∧ aggregateByUnit exDaySeries TimeUnit.Day =
        [⟨some 1752019200000, JsNum.val 15⟩, ⟨some 1752105600000, JsNum.val 30⟩] := by
  constructor
  · intro series hval
    have hfin : ∀ pt ∈ series, isFiniteSample pt = true :=
      fun pt hpt => inModelRange_finite pt (hval pt hpt)
    have hrange := daysOf_range series hval
    have hinj : ∀ a ∈ daysOf series, ∀ b ∈ daysOf series,
        toISODateKey (86400000 * a) = toISODateKey (86400000 * b) → a = b := by
      intro a ha b hb h
      obtain ⟨ha1, ha2⟩ := hrange a ha
      obtain ⟨hb1, hb2⟩ := hrange b hb
      exact dayKey_inj ha1 ha2 hb1 hb2 h
    have hmaps :
        ((dedupFirst (keysOf series)).map (fun k =>
          (⟨parseIsoDate (k ++ "T00:00:00.000Z"),
            JsNum.val ((keyTemps series k).sum /
              ((keyTemps series k).length : ℚ))⟩ : TimePoint))) =
        ((dedupFirst (daysOf series)).map (fun D =>
          (⟨some (86400000 * D), JsNum.val (dayMean series D)⟩ : TimePoint))) := by
      rw [keysOf_eq_map series hval, dedupFirst_map _ _ hinj, List.map_map]
      apply List.map_congr_left
      intro D hD
      obtain ⟨hD1, hD2⟩ := hrange D ((mem_dedupFirst _ _).mp hD)
      have hmid := midnight_roundtrip (86400000 * D) (by omega) (by omega)
      rw [Int.mul_ediv_cancel_left _ (by norm_num)] at hmid
      dsimp only [Function.comp_apply]
      rw [keyTemps_eq_dayTemps series D hval hD1 hD2, hmid,
          show D * 86400000 = 86400000 * D from Int.mul_comm D 86400000]
      rfl
    refine ⟨?_, dedupFirst_nodup _, ?_⟩
    · rw [dayAgg_eq series hfin, ← hmaps]
      exact List.mergeSort_perm _ _
    · rw [dayAgg_eq series hfin]
      exact List.sorted_mergeSort timeLe_trans timeLe_total _
  · have hex : ∀ pt ∈ exDaySeries, isFiniteSample pt = true := by decide
    rw [dayAgg_eq _ hex]
    have e1 : dedupFirst (keysOf exDaySeries) = ["2025-07-09", "2025-07-10"] := by
      decide
    rw [e1]
    simp only [List.map_cons, List.map_nil]
    have e2 : keyTemps exDaySeries "2025-07-09" = [10, 20] := by decide
    have e3 : keyTemps exDaySeries "2025-07-10" = [30] := by decide
    have e4 : parseIsoDate ("2025-07-09" ++ "T00:00:00.000Z") =
        some 1752019200000 := by decide
    have e5 : parseIsoDate ("2025-07-10" ++ "T00:00:00.000Z") =
        some 1752105600000 := by decide
    rw [e2, e3, e4, e5]
    have e6 : (([10, 20] : List ℚ).sum / (([10, 20] : List ℚ).length : ℚ)) = 15 := by
      norm_num
    have e7 : (([30] : List ℚ).sum / (([30] : List ℚ).length : ℚ)) = 30 := by
      norm_num
    rw [e6, e7]
    exact List.mergeSort_of_sorted (by decide)

/-- Witness for C2 at the specification's example series. -/
theorem claim_C2_witness :
    (∀ pt ∈ exDaySeries, inModelRange pt = true)
    ∧ (aggregateByUnit exDaySeries TimeUnit.Day).Perm
        ((dedupFirst (daysOf exDaySeries)).map (fun D =>
          (⟨some (86400000 * D), JsNum.val (dayMean exDaySeries D)⟩ : TimePoint))) :=
  ⟨by decide, (claim_C2.1 exDaySeries (by decide)).1⟩
